import Mathlib

/-!
Verification of `src/data/scraper.py` (DivyaPrabandamScraper).

The Python scraper is embedded shallowly:

* JSON-like values become the inductive type `Json` (mappings are ordered
  association lists, mirroring Python dict insertion order).
* Python truthiness (`if not x`) becomes `Json.truthy`.
* `str(x)` becomes `Json.pyStr` (containers rendered in Python repr style).
* Each method becomes a pure Lean function over its fetched payloads; the
  HTTP fetch itself is abstracted as an oracle `fetch : String → Json`
  passed to the orchestrator, and the orchestrator records the list of
  URLs it fetched so that claims about "no fetch attempted" are statable.
* An exception caught by a `try/except` in the Python code is modelled by
  the branch the handler selects (an empty dict / a skipped item).
-/

/-- A JSON-like value, as traversed by the scraper.  `obj` keeps the
dict entries in insertion order; keys are assumed unique as in a Python
dict.  Numbers are modelled as integers (no claim involves numerics). -/
inductive Json where
  | str (s : String) : Json
  | num (n : Int) : Json
  | bool (b : Bool) : Json
  | null : Json
  | arr (items : List Json) : Json
  | obj (kvs : List (String × Json)) : Json

/-- Python truthiness of a JSON value (`if not x` takes the else branch
iff `truthy x`). -/
def Json.truthy : Json → Bool
  | .str s => s ≠ ""
  | .num n => n ≠ 0
  | .bool b => b
  | .null => false
  | .arr items => !items.isEmpty
  | .obj kvs => !kvs.isEmpty

mutual

/-- Python `repr` of a JSON value (used by `str` on containers). -/
def Json.pyRepr : Json → String
  | .str s => "\x27" ++ s ++ "\x27"
  | .num n => toString n
  | .bool b => if b then "True" else "False"
  | .null => "None"
  | .arr items => "[" ++ pyReprList items ++ "]"
  | .obj kvs => "\x7b" ++ pyReprObj kvs ++ "\x7d"

/-- Comma-separated `repr`s of the elements of a list. -/
def pyReprList : List Json → String
  | [] => ""
  | [x] => x.pyRepr
  | x :: xs => x.pyRepr ++ ", " ++ pyReprList xs

/-- Comma-separated `repr`s of the entries of a dict. -/
def pyReprObj : List (String × Json) → String
  | [] => ""
  | [(k, v)] => "\x27" ++ k ++ "\x27: " ++ v.pyRepr
  | (k, v) :: rest => "\x27" ++ k ++ "\x27: " ++ v.pyRepr ++ ", " ++ pyReprObj rest

end

/-- Python `str` of a JSON value. -/
def Json.pyStr : Json → String
  | .str s => s
  | j => j.pyRepr

/-- Python dict lookup `d[k]` / `k in d` on the ordered entry list
(keys are unique, so first match is the match). -/
def Json.lookup (kvs : List (String × Json)) (key : String) : Option Json :=
  match kvs.find? (fun kv => kv.1 = key) with
  | some kv => some kv.2
  | none => none

/-- Python `d.get(k, default)`. -/
def Json.getD (kvs : List (String × Json)) (key : String) (dflt : Json) : Json :=
  match Json.lookup kvs key with
  | some v => v
  | none => dflt

/-- The contribution of a value sitting under the target key in
`find_url_paths`: the value itself when it is a string, else nothing
(scraper.py:64-66). -/
def strSingleton : Json → List String
  | .str s => [s]
  | _ => []

/-- `pat` occurs at the head of `l`. -/
def leadsWith : List Char → List Char → Bool
  | [], _ => true
  | _ :: _, [] => false
  | a :: as, b :: bs => a == b && leadsWith as bs

/-- `pat` occurs somewhere in `l`. -/
def containsSeq (pat : List Char) : List Char → Bool
  | [] => leadsWith pat []
  | b :: bs => leadsWith pat (b :: bs) || containsSeq pat bs

/-- `s` contains `pat` as a substring (Python `pat in s`). -/
def hasSubstr (s pat : String) : Bool :=
  containsSeq pat.data s.data

/-- Python `path.startswith('/')`: the first character is a slash. -/
def startsWithSlash (path : String) : Bool :=
  match path.data with
  | [] => false
  | c :: _ => c == '/'

/-- Python `s.rstrip('/')`: drop every trailing `/`. -/
def rstripSlash (s : String) : String :=
  ⟨(s.data.reverse.dropWhile (fun c => c = '/')).reverse⟩

/-- `DivyaPrabandamScraper._construct_url` (scraper.py:43-48): prefix the
path with `/` when missing and wrap it in the `_next/data` address. -/
def construct_url (base_url build_id path : String) : String :=
  let p := if startsWithSlash path then path else "/" ++ path
  base_url ++ "/_next/data/" ++ build_id ++ p ++ ".json"

mutual

/-- `DivyaPrabandamScraper.find_url_paths` (scraper.py:60-71), with the
accumulated `url_paths` list returned instead of mutated.  On a dict it
walks the entries in order: an entry keyed `url_path_clean` contributes
its value when that value is a string (and is not recursed into — the
Python `else`); every other entry is recursed into.  Lists are walked
elementwise; scalars contribute nothing. -/
def find_url_paths : Json → List String
  | .obj kvs => findInObj kvs
  | .arr items => findInArr items
  | _ => []

/-- Dict part of `find_url_paths`. -/
def findInObj : List (String × Json) → List String
  | [] => []
  | (k, v) :: rest =>
      (if k = "url_path_clean" then strSingleton v
      else find_url_paths v) ++ findInObj rest

/-- List part of `find_url_paths`. -/
def findInArr : List Json → List String
  | [] => []
  | x :: rest => find_url_paths x ++ findInArr rest

end

/-- `DivyaPrabandamScraper._safe_join_scriptures` (scraper.py:73-81):
falsy input yields `""`; a list joins the `str` of its truthy elements
with commas; a string passes through; anything else is `str`-ed. -/
def safe_join_scriptures (scriptures : Json) : String :=
  if !scriptures.truthy then ""
  else match scriptures with
    | .arr items => String.intercalate "," ((items.filter Json.truthy).map Json.pyStr)
    | .str s => s
    | other => other.pyStr

/-- The eleven-field Paasuram record built by `process_paasuram`. -/
structure Record where
  number : String
  tamil : String
  tamil_clear : String
  english_transliteration : String
  simple_english : String
  explanatory_notes : String
  purport : String
  ragam : String
  thalam : String
  mood : String
  scriptures : String
deriving DecidableEq, Repr

/-- The record projection in `process_paasuram` (scraper.py:91-103),
applied to the entries of the `pageProps` dict. -/
def record_of_props (props : List (String × Json)) : Record where
  number := (Json.getD props "number_full" (.str "")).pyStr
  tamil := (Json.getD props "pasuram_ta_c" (.str "")).pyStr
  tamil_clear := (Json.getD props "pasuram_ta" (.str "")).pyStr
  english_transliteration := (Json.getD props "pasuram_en" (.str "")).pyStr
  simple_english := (Json.getD props "simple_en" (.str "")).pyStr
  explanatory_notes := (Json.getD props "explanatory_notes_en" (.str "")).pyStr
  purport := (Json.getD props "purport_en" (.str "")).pyStr
  ragam := (Json.getD props "ragam" (.str "")).pyStr
  thalam := (Json.getD props "thalam" (.str "")).pyStr
  mood := (Json.getD props "mood" (.str "")).pyStr
  scriptures := safe_join_scriptures (Json.getD props "scriptures" (.arr []))

/-- `DivyaPrabandamScraper.process_paasuram` (scraper.py:83-106) applied
to the already-fetched payload (`data = self._fetch_json(url)`); `none`
is the empty dict the Python code returns.  A falsy payload or one
without a `pageProps` key returns empty directly; a payload that is not
a dict, or whose `pageProps` is not a dict, makes the Python code raise
(`in` on a non-container / `.get` on a non-dict) inside the `try`, and
the handler returns empty — so every non-conforming payload maps to
`none`. -/
def process_paasuram (data : Json) : Option Record :=
  match data with
  | .obj kvs =>
      if !(Json.obj kvs).truthy then none
      else match Json.lookup kvs "pageProps" with
        | some (.obj props) => some (record_of_props props)
        | some _ => none
        | none => none
  | _ => none

/-- `len(x[1:])` for the last descendant entry (scraper.py:142).  Python
slicing works on lists and strings; on any other value it raises, the
outer handler catches, and the whole Prabandam is skipped — modelled by
`none`. -/
def lastSliceLen : Json → Option Nat
  | .arr items => some (items.drop 1).length
  | .str s => some (s.data.drop 1).length
  | _ => none

/-- The per-entry body of the descendant loop (scraper.py:143-153),
given the already computed `prabandam_depth`: a non-list entry is
skipped; the path parts are the `str`s of the entry's truthy elements;
an entry with no parts is skipped; the candidate path is
`/divya-prabandam/<joined parts>`; the path is kept only when it
contains neither taniyan nor advanced and the entry's length minus one
equals `prabandam_depth`. -/
def entry_leaf_path (prabandam_depth : Nat) : Json → Option String
  | .arr e =>
      let path_parts := (e.filter Json.truthy).map Json.pyStr
      if path_parts.isEmpty then none
      else
        let path := "/divya-prabandam/" ++ String.intercalate "/" path_parts
        if hasSubstr path "taniyan" || hasSubstr path "advanced" then none
        else if prabandam_depth = (e.drop 1).length then some path
        else none
  | _ => none

/-- The candidate path an entry constructs (scraper.py:147-150), on its
own. -/
def candidate_path (e : List Json) : String :=
  "/divya-prabandam/" ++ String.intercalate "/" ((e.filter Json.truthy).map Json.pyStr)

/-- The descendant-analysis loop of `scrape_and_save` (scraper.py:138-153)
for one Prabandam, applied to the `descendants_list` value: an empty or
non-list value yields nothing (`if not descendants: continue`; a string
iterates over characters, none of which is a list; any other truthy value
raises at the last-entry slice and the handler skips the Prabandam).
Returns the kept candidate paths in entry order. -/
def discover_leaf_paths (descendants : Json) : List String :=
  if !descendants.truthy then []
  else match descendants with
    | .arr ds =>
        match ds.getLast? with
        | none => []
        | some last =>
            match lastSliceLen last with
            | none => []
            | some prabandam_depth => ds.filterMap (entry_leaf_path prabandam_depth)
    | _ => []

/-- Extraction of `descendants_list` from a fetched Prabandam payload
(scraper.py:134-140): a falsy payload or one without `pageProps` is
skipped; a non-dict payload or non-dict `pageProps` raises inside the
`try` and the handler skips; a dict `pageProps` yields the value of
`descendants_list`, defaulting to an empty list. -/
def descendants_of (data : Json) : Option Json :=
  match data with
  | .obj kvs =>
      if !(Json.obj kvs).truthy then none
      else match Json.lookup kvs "pageProps" with
        | some (.obj props) => some (Json.getD props "descendants_list" (.arr []))
        | some _ => none
        | none => none
  | _ => none

/-- Leaf (Paasuram) URLs one Prabandam payload contributes
(scraper.py:132-153). -/
def leaf_urls_of_payload (base_url build_id : String) (data : Json) : List String :=
  match descendants_of data with
  | none => []
  | some ds => (discover_leaf_paths ds).map (construct_url base_url build_id)

/-- Outcome of one HTTP GET as seen by `_fetch_json`: either the session
produced a response (after the retry adapter did its work), or it raised
a `RequestException` (connection failure, timeout, retries exhausted
without a response). -/
inductive HttpResult where
  | response (status : Nat) (body : String)
  | transportError

/-- `DivyaPrabandamScraper._fetch_json` (scraper.py:50-58) over an
abstract GET outcome and an abstract JSON parser (`parse body = none`
models a body that is not valid JSON, whose decode error is a
`RequestException` subclass and is caught).  `raise_for_status` raises
for any 4xx/5xx status; every raised `RequestException` lands in the
handler, which returns the empty dict. -/
def fetch_json (parse : String → Option Json) : HttpResult → Json
  | .transportError => .obj []
  | .response status body =>
      if 400 ≤ status ∧ status < 600 then .obj []
      else match parse body with
        | some j => j
        | none => .obj []

deriving instance DecidableEq for Except

/-- Result of one run of `scrape_and_save`: the outcome (`ok rows` means
the CSV was written with exactly those rows; `error msg` means the run
raised `Exception msg` and wrote nothing), plus every URL passed to
`_fetch_json`, in the order the fetches were issued (the worker pool
fetches are listed in submission order). -/
structure RunResult where
  outcome : Except String (List Record)
  fetched : List String
deriving DecidableEq

/-- The URL of the root structure page (scraper.py:114). -/
def root_url (base_url build_id : String) : String :=
  construct_url base_url build_id "/divya-prabandam"

/-- The list of path arguments handed to `_construct_url` on
scraper.py:125: the discovered paths, falsy ones dropped, trailing
slashes stripped. -/
def stripped_paths (url_paths : List String) : List String :=
  (url_paths.filter (fun p => p != "")).map rstripSlash

/-- The Prabandam URL list built on scraper.py:125. -/
def prabandam_urls_of (base_url build_id : String) (url_paths : List String) : List String :=
  (stripped_paths url_paths).map (construct_url base_url build_id)

/-- The Paasuram URL list accumulated on scraper.py:131-159, one
Prabandam fetch at a time, in order. -/
def paasuram_urls_of (base_url build_id : String) (fetch : String → Json)
    (prabandam_urls : List String) : List String :=
  prabandam_urls.flatMap (fun u => leaf_urls_of_payload base_url build_id (fetch u))

/-- The records aggregated from the worker-pool futures
(scraper.py:175-185): futures are read back in submission order and a
truthy (non-empty) result is appended. -/
def collected_records (fetch : String → Json) (paasuram_urls : List String) : List Record :=
  paasuram_urls.filterMap (fun u => process_paasuram (fetch u))

/-- `DivyaPrabandamScraper.scrape_and_save` (scraper.py:108-201) over a
fetch oracle `fetch : url → payload` standing for `_fetch_json`.  The
CSV writing (scraper.py:190-199) only happens after every zero-result
check has passed, so `ok` carries the rows written. -/
def scrape_and_save (base_url build_id : String) (fetch : String → Json) : RunResult :=
  let root := root_url base_url build_id
  let initial_data := fetch root
  if !initial_data.truthy then
    ⟨.error "Failed to fetch initial data", [root]⟩
  else
    let url_paths := find_url_paths initial_data
    if url_paths.isEmpty then
      ⟨.error "No URL paths found in initial data", [root]⟩
    else
      let prabandam_urls := prabandam_urls_of base_url build_id url_paths
      if prabandam_urls.isEmpty then
        ⟨.error "No Prabandam URLs generated", [root]⟩
      else
        let paasuram_urls := paasuram_urls_of base_url build_id fetch prabandam_urls
        if paasuram_urls.isEmpty then
          ⟨.error "No Paasuram URLs found", root :: prabandam_urls⟩
        else
          let paasurams := collected_records fetch paasuram_urls
          if paasurams.isEmpty then
            ⟨.error "No paasuram data collected", root :: (prabandam_urls ++ paasuram_urls)⟩
          else
            ⟨.ok paasurams, root :: (prabandam_urls ++ paasuram_urls)⟩

mutual

/-- Modelled from the spec (§4.3): the path discoverer as the spec
describes it — "for mappings, recurses into every value, additionally
collecting the value directly when its key equals `target_key` and that
value is a string".  Unlike `find_url_paths`, it also recurses into the
value under the target key.  Kept for comparison with the code. -/
def find_paths_spec : Json → List String
  | .obj kvs => findSpecObj kvs
  | .arr items => findSpecArr items
  | _ => []

/-- Dict part of `find_paths_spec`. -/
def findSpecObj : List (String × Json) → List String
  | [] => []
  | (k, v) :: rest =>
      ((if k = "url_path_clean" then strSingleton v else []) ++
        find_paths_spec v) ++ findSpecObj rest

/-- List part of `find_paths_spec`. -/
def findSpecArr : List Json → List String
  | [] => []
  | x :: rest => find_paths_spec x ++ findSpecArr rest

end

/-- The strings `find_url_paths` is meant to collect, characterised
independently of the traversal: `s` is a string value sitting directly
under an `url_path_clean` key, reachable through dict entries whose key
is not `url_path_clean` and through list elements. -/
inductive CollectedBy : Json → String → Prop where
  | hit {kvs : List (String × Json)} {s : String} :
      ("url_path_clean", Json.str s) ∈ kvs → CollectedBy (.obj kvs) s
  | objStep {kvs : List (String × Json)} {k : String} {v : Json} {s : String} :
      (k, v) ∈ kvs → k ≠ "url_path_clean" → CollectedBy v s → CollectedBy (.obj kvs) s
  | arrStep {items : List Json} {v : Json} {s : String} :
      v ∈ items → CollectedBy v s → CollectedBy (.arr items) s

/-- A leaf payload with one populated field, used to exercise the
pipeline end to end. -/
def c7_leaf_payload : Json :=
  .obj [("pageProps", .obj [("number_full", .str "1")])]

/-- A fetch oracle describing a run with one Prabandam holding five
Paasurams; the fetch of the third leaf fails (the fetcher degrades any
failure to an empty dict), the other four succeed. -/
def c7_fetch (u : String) : Json :=
  if u = construct_url "b" "i" "/divya-prabandam" then
    .obj [("x", .obj [("url_path_clean", .str "/divya-prabandam/p1")])]
  else if u = construct_url "b" "i" "/divya-prabandam/p1" then
    .obj [("pageProps", .obj [("descendants_list", .arr
      [.arr [.str "cat", .str "x1"], .arr [.str "cat", .str "x2"],
       .arr [.str "cat", .str "x3"], .arr [.str "cat", .str "x4"],
       .arr [.str "cat", .str "x5"]])])]
  else if u = construct_url "b" "i" "/divya-prabandam/cat/x3" then
    .obj []
  else c7_leaf_payload

/-- The record extracted from `c7_leaf_payload`. -/
def c7_record : Record :=
  ⟨"1", "", "", "", "", "", "", "", "", "", ""⟩

/-- Inversion: nothing is collected from an empty dict. -/
theorem collectedBy_obj_nil {s : String} : ¬ CollectedBy (.obj []) s := by
  intro h
  cases h with
  | hit hmem => exact absurd hmem (List.not_mem_nil _)
  | objStep hmem hk hc => exact absurd hmem (List.not_mem_nil _)

/-- Inversion: nothing is collected from an empty list. -/
theorem collectedBy_arr_nil {s : String} : ¬ CollectedBy (.arr []) s := by
  intro h
  cases h with
  | arrStep hmem hc => exact absurd hmem (List.not_mem_nil _)

/-- Inversion of `CollectedBy` at a dict with a leading entry. -/
theorem collectedBy_obj_cons {k : String} {v : Json} {rest : List (String × Json)} {s : String} :
    CollectedBy (.obj ((k, v) :: rest)) s ↔
      (k = "url_path_clean" ∧ v = Json.str s) ∨
      (k ≠ "url_path_clean" ∧ CollectedBy v s) ∨
      CollectedBy (.obj rest) s := by
  constructor
  · intro h
    cases h with
    | hit hmem =>
        rcases List.mem_cons.1 hmem with heq | hmem'
        · injection heq with h1 h2
          exact Or.inl ⟨h1.symm, h2.symm⟩
        · exact Or.inr (Or.inr (.hit hmem'))
    | objStep hmem hk hc =>
        rcases List.mem_cons.1 hmem with heq | hmem'
        · injection heq with h1 h2
          subst h1; subst h2
          exact Or.inr (Or.inl ⟨hk, hc⟩)
        · exact Or.inr (Or.inr (.objStep hmem' hk hc))
  · rintro (⟨hk, hv⟩ | ⟨hk, hc⟩ | h)
    · subst hk; subst hv
      exact .hit (List.mem_cons_self _ _)
    · exact .objStep (List.mem_cons_self _ _) hk hc
    · cases h with
      | hit hmem => exact .hit (List.mem_cons_of_mem _ hmem)
      | objStep hmem hk' hc => exact .objStep (List.mem_cons_of_mem _ hmem) hk' hc

/-- A value something is collected from is a dict or a list. -/
theorem collectedBy_shape {j : Json} {s : String} (h : CollectedBy j s) :
    (∃ kvs, j = Json.obj kvs) ∨ (∃ items, j = Json.arr items) := by
  cases h with
  | hit hmem => exact Or.inl ⟨_, rfl⟩
  | objStep hmem hk hc => exact Or.inl ⟨_, rfl⟩
  | arrStep hmem hc => exact Or.inr ⟨_, rfl⟩

/-- Membership in `strSingleton`. -/
theorem mem_strSingleton {v : Json} {s : String} :
    s ∈ strSingleton v ↔ v = Json.str s := by
  cases v with
  | str s0 =>
      rw [show strSingleton (Json.str s0) = [s0] from rfl, List.mem_singleton]
      exact ⟨fun h => by rw [h], fun h => by injection h with h1; rw [h1]⟩
  | num n => exact ⟨fun h => absurd h (List.not_mem_nil _), fun h => Json.noConfusion h⟩
  | bool b => exact ⟨fun h => absurd h (List.not_mem_nil _), fun h => Json.noConfusion h⟩
  | null => exact ⟨fun h => absurd h (List.not_mem_nil _), fun h => Json.noConfusion h⟩
  | arr items => exact ⟨fun h => absurd h (List.not_mem_nil _), fun h => Json.noConfusion h⟩
  | obj kvs => exact ⟨fun h => absurd h (List.not_mem_nil _), fun h => Json.noConfusion h⟩

/-- Inversion of `CollectedBy` at a list with a leading element. -/
theorem collectedBy_arr_cons {x : Json} {rest : List Json} {s : String} :
    CollectedBy (.arr (x :: rest)) s ↔ CollectedBy x s ∨ CollectedBy (.arr rest) s := by
  constructor
  · intro h
    cases h with
    | arrStep hmem hc =>
        rcases List.mem_cons.1 hmem with heq | hmem'
        · subst heq; exact Or.inl hc
        · exact Or.inr (.arrStep hmem' hc)
  · rintro (h | h)
    · exact .arrStep (List.mem_cons_self _ _) h
    · cases h with
      | arrStep hmem hc => exact .arrStep (List.mem_cons_of_mem _ hmem) hc

mutual

/-- Membership in `find_url_paths` is exactly `CollectedBy`. -/
theorem mem_find_url_paths (j : Json) (s : String) :
    s ∈ find_url_paths j ↔ CollectedBy j s := by
  cases j with
  | obj kvs => rw [find_url_paths]; exact mem_findInObj kvs s
  | arr items => rw [find_url_paths]; exact mem_findInArr items s
  | str s0 =>
      refine ⟨fun h => absurd h (List.not_mem_nil _), fun h => ?_⟩
      rcases collectedBy_shape h with ⟨_, hk⟩ | ⟨_, hk⟩ <;> exact Json.noConfusion hk
  | num n =>
      refine ⟨fun h => absurd h (List.not_mem_nil _), fun h => ?_⟩
      rcases collectedBy_shape h with ⟨_, hk⟩ | ⟨_, hk⟩ <;> exact Json.noConfusion hk
  | bool b =>
      refine ⟨fun h => absurd h (List.not_mem_nil _), fun h => ?_⟩
      rcases collectedBy_shape h with ⟨_, hk⟩ | ⟨_, hk⟩ <;> exact Json.noConfusion hk
  | null =>
      refine ⟨fun h => absurd h (List.not_mem_nil _), fun h => ?_⟩
      rcases collectedBy_shape h with ⟨_, hk⟩ | ⟨_, hk⟩ <;> exact Json.noConfusion hk

/-- Membership in `findInObj` is `CollectedBy` of the enclosing dict. -/
theorem mem_findInObj (kvs : List (String × Json)) (s : String) :
    s ∈ findInObj kvs ↔ CollectedBy (.obj kvs) s := by
  match kvs with
  | [] =>
      rw [findInObj]
      exact ⟨fun h => absurd h (List.not_mem_nil _), fun h => absurd h collectedBy_obj_nil⟩
  | (k, v) :: rest =>
      rw [findInObj, collectedBy_obj_cons]
      rw [List.mem_append]
      constructor
      · rintro (hhead | htail)
        · by_cases hk : k = "url_path_clean"
          · rw [if_pos hk] at hhead
            exact Or.inl ⟨hk, mem_strSingleton.1 hhead⟩
          · rw [if_neg hk] at hhead
            exact Or.inr (Or.inl ⟨hk, (mem_find_url_paths v s).1 hhead⟩)
        · exact Or.inr (Or.inr ((mem_findInObj rest s).1 htail))
      · rintro (⟨hk, hv⟩ | ⟨hk, hc⟩ | h)
        · exact Or.inl (by rw [if_pos hk]; exact mem_strSingleton.2 hv)
        · exact Or.inl (by rw [if_neg hk]; exact (mem_find_url_paths v s).2 hc)
        · exact Or.inr ((mem_findInObj rest s).2 h)

/-- Membership in `findInArr` is `CollectedBy` of the enclosing list. -/
theorem mem_findInArr (items : List Json) (s : String) :
    s ∈ findInArr items ↔ CollectedBy (.arr items) s := by
  match items with
  | [] =>
      rw [findInArr]
      exact ⟨fun h => absurd h (List.not_mem_nil _), fun h => absurd h collectedBy_arr_nil⟩
  | x :: rest =>
      rw [findInArr, collectedBy_arr_cons, List.mem_append]
      exact or_congr (mem_find_url_paths x s) (mem_findInArr rest s)

end

/-- Inversion of a kept entry: it was a list, its path is the candidate
path, its parts were non-empty, its path is marker-free, and its length
minus one matched the Prabandam depth. -/
theorem entry_leaf_path_some {d : Nat} {a : Json} {p : String}
    (h : entry_leaf_path d a = some p) :
    ∃ e, a = Json.arr e ∧ p = candidate_path e ∧
      ((e.filter Json.truthy).map Json.pyStr).isEmpty = false ∧
      hasSubstr p "taniyan" = false ∧ hasSubstr p "advanced" = false ∧
      d = (e.drop 1).length := by
  cases a with
  | arr e =>
      refine ⟨e, rfl, ?_⟩
      simp only [entry_leaf_path] at h
      split_ifs at h with h1 h2 h3
      · injection h with hp
        subst hp
        rw [Bool.or_eq_true, not_or] at h2
        refine ⟨rfl, by simpa using h1, ?_, ?_, h3⟩
        · simpa using h2.1
        · simpa using h2.2
  | str s => exact Option.noConfusion h
  | num n => exact Option.noConfusion h
  | bool b => exact Option.noConfusion h
  | null => exact Option.noConfusion h
  | obj kvs => exact Option.noConfusion h

/-- When the descendant list is a non-empty JSON list whose last entry
slices, `discover_leaf_paths` is the filtered map over its entries. -/
theorem discover_leaf_paths_arr {ds : List Json} {last : Json} {d : Nat}
    (hlast : ds.getLast? = some last) (hd : lastSliceLen last = some d) :
    discover_leaf_paths (.arr ds) = ds.filterMap (entry_leaf_path d) := by
  have hne : ds.isEmpty = false := by
    cases ds with
    | nil => exact absurd hlast (by simp)
    | cons x xs => rfl
  simp only [discover_leaf_paths, Json.truthy, hne, Bool.not_false, Bool.not_true,
    Bool.false_eq_true, if_false, hlast, hd]

/-- Inversion of membership in `discover_leaf_paths`. -/
theorem mem_discover_leaf_paths {descendants : Json} {p : String}
    (hp : p ∈ discover_leaf_paths descendants) :
    ∃ ds last d, descendants = Json.arr ds ∧ ds.getLast? = some last ∧
      lastSliceLen last = some d ∧
      ∃ a, a ∈ ds ∧ entry_leaf_path d a = some p := by
  cases descendants with
  | arr ds =>
      refine ⟨ds, ?_⟩
      cases hlast : ds.getLast? with
      | none =>
          rw [List.getLast?_eq_none_iff] at hlast
          subst hlast
          exact absurd hp (by simp [discover_leaf_paths])
      | some last =>
          cases hd : lastSliceLen last with
          | none =>
              have hne : ds.isEmpty = false := by
                cases ds with
                | nil => exact absurd hlast (by simp)
                | cons x xs => rfl
              rw [show discover_leaf_paths (.arr ds) = [] from by
                simp [discover_leaf_paths, Json.truthy, hne, hlast, hd]] at hp
              exact absurd hp (List.not_mem_nil _)
          | some d =>
              rw [discover_leaf_paths_arr hlast hd] at hp
              exact ⟨last, d, rfl, rfl, hd, List.mem_filterMap.1 hp⟩
  | str s =>
      exact absurd hp (by simp [discover_leaf_paths])
  | num n =>
      exact absurd hp (by simp [discover_leaf_paths])
  | bool b =>
      exact absurd hp (by simp [discover_leaf_paths])
  | null =>
      exact absurd hp (by simp [discover_leaf_paths])
  | obj kvs =>
      exact absurd hp (by simp [discover_leaf_paths])

/-- The characters of a constructed URL, with the normalization branch
left explicit. -/
theorem construct_url_data (base_url build_id path : String) :
    (construct_url base_url build_id path).data =
      base_url.data ++ "/_next/data/".data ++ build_id.data ++
        (if startsWithSlash path then path.data else '/' :: path.data) ++ ".json".data := by
  by_cases h : startsWithSlash path
  · simp [construct_url, h, String.data_append]
  · simp [construct_url, h, String.data_append]

/-- Every candidate path starts with the characters `/d`. -/
theorem candidate_path_head (e : List Json) :
    ∃ r, (candidate_path e).data = '/' :: 'd' :: r := by
  have h : (candidate_path e).data =
      '/' :: 'd' :: ("ivya-prabandam/".data ++
        (String.intercalate "/" ((e.filter Json.truthy).map Json.pyStr)).data) := by
    rw [candidate_path, String.data_append,
      show ("/divya-prabandam/".data) = '/' :: 'd' :: ("ivya-prabandam/".data) from rfl,
      List.cons_append, List.cons_append]
  exact ⟨_, h⟩

/-- `construct_url` is injective on paths that start with `/d` (such as
all candidate paths). -/
theorem construct_url_inj_slash {base_url build_id p q : String}
    (hp : ∃ r, p.data = '/' :: 'd' :: r) (hq : ∃ r, q.data = '/' :: 'd' :: r)
    (h : construct_url base_url build_id p = construct_url base_url build_id q) : p = q := by
  obtain ⟨rp, hpd⟩ := hp
  obtain ⟨rq, hqd⟩ := hq
  have h2 := congrArg String.data h
  rw [construct_url_data, construct_url_data] at h2
  have h3 : (if startsWithSlash p then p.data else '/' :: p.data) =
      (if startsWithSlash q then q.data else '/' :: q.data) :=
    List.append_cancel_left (List.append_cancel_right h2)
  by_cases hbp : startsWithSlash p
  · by_cases hbq : startsWithSlash q
    · rw [if_pos hbp, if_pos hbq] at h3
      exact String.ext h3
    · rw [if_pos hbp, if_neg hbq] at h3
      rw [hpd, hqd] at h3
      injection h3 with hc1 h4
      injection h4 with hc2 h5
      exact absurd hc2 (by decide)
  · by_cases hbq : startsWithSlash q
    · rw [if_neg hbp, if_pos hbq] at h3
      rw [hpd, hqd] at h3
      injection h3 with hc1 h4
      injection h4 with hc2 h5
      exact absurd hc2 (by decide)
    · rw [if_neg hbp, if_neg hbq] at h3
      injection h3 with hc1 h4
      exact String.ext h4

/-- Every path kept by the descendant analysis is free of both marker
substrings. -/
theorem clean_of_mem_discover {descendants : Json} {p : String}
    (hp : p ∈ discover_leaf_paths descendants) :
    hasSubstr p "taniyan" = false ∧ hasSubstr p "advanced" = false := by
  obtain ⟨ds, last, d, hdd, hlast, hd, a, ha, he⟩ := mem_discover_leaf_paths hp
  obtain ⟨e', _, _, _, ht, hadv, _⟩ := entry_leaf_path_some he
  exact ⟨ht, hadv⟩

/-- Every path kept by the descendant analysis is a candidate path. -/
theorem candidate_of_mem_discover {descendants : Json} {p : String}
    (hp : p ∈ discover_leaf_paths descendants) :
    ∃ e, p = candidate_path e := by
  obtain ⟨ds, last, d, hdd, hlast, hd, a, ha, he⟩ := mem_discover_leaf_paths hp
  obtain ⟨e', _, hpe, _, _, _, _⟩ := entry_leaf_path_some he
  exact ⟨e', hpe⟩

/-- C1 counterexample: on the payload whose `url_path_clean` value is
itself a dict holding an inner `url_path_clean` string, the string `/x`
is reachable via the key `url_path_clean` (the spec-worded traversal
`find_paths_spec` collects it), yet `find_url_paths` collects nothing —
the code does not recurse into values sitting under the target key, so
it does not collect every reachable string. -/
theorem C1_counterexample :
    find_url_paths (Json.obj [("url_path_clean",
        Json.obj [("url_path_clean", Json.str "/x")])]) = [] ∧
    find_paths_spec (Json.obj [("url_path_clean",
        Json.obj [("url_path_clean", Json.str "/x")])]) = ["/x"] := by
  exact ⟨rfl, rfl⟩

/-- C1 (amended): `find_url_paths` collects exactly the string values
sitting under an `url_path_clean` key that are reachable without
passing through another `url_path_clean` entry (values under the target
key are collected when they are strings but never recursed into); it
returns the empty list when no such value exists, never fails on finite
structures, and reports matches in pre-order first-encounter order, as
on the two-match example. -/
theorem C1_find_url_paths :
    (∀ (j : Json) (s : String), s ∈ find_url_paths j ↔ CollectedBy j s) ∧
    find_url_paths (Json.obj
      [("a", Json.obj [("b", Json.obj [("url_path_clean", Json.str "/foo")])]),
       ("c", Json.arr [Json.obj [("url_path_clean", Json.str "/bar")]])]) =
      ["/foo", "/bar"] :=
  ⟨mem_find_url_paths, rfl⟩

/-- C2: the Prabandam depth is the length of the last descendant entry
minus one; an entry's path is kept only when the entry's length minus
one equals that depth; and on the two-entry example the depth is `2` and
only the second entry survives. -/
theorem C2_leaf_depth :
    (∀ (last : List Json), lastSliceLen (Json.arr last) = some (last.length - 1)) ∧
    (∀ (ds : List Json) (last : Json) (d : Nat) (p : String),
        ds.getLast? = some last → lastSliceLen last = some d →
        p ∈ discover_leaf_paths (Json.arr ds) →
        ∃ e, Json.arr e ∈ ds ∧ p = candidate_path e ∧ e.length - 1 = d) ∧
    lastSliceLen (Json.arr [Json.str "cat", Json.str "a", Json.str "b"]) = some 2 ∧
    discover_leaf_paths (Json.arr [Json.arr [Json.str "cat", Json.str "a"],
        Json.arr [Json.str "cat", Json.str "a", Json.str "b"]]) =
      ["/divya-prabandam/cat/a/b"] := by
  refine ⟨?_, ?_, by decide, by decide⟩
  · intro last
    simp [lastSliceLen, List.length_drop]
  · intro ds last d p hlast hd hp
    rw [discover_leaf_paths_arr hlast hd] at hp
    obtain ⟨a, ha, he⟩ := List.mem_filterMap.1 hp
    obtain ⟨e, haeq, hpe, _, _, _, hdep⟩ := entry_leaf_path_some he
    subst haeq
    exact ⟨e, ha, hpe, by rw [hdep, List.length_drop]⟩

/-- Witness for C2 at the spec's own example. -/
theorem C2_leaf_depth_witness :
    ∃ e, Json.arr e ∈ [Json.arr [Json.str "cat", Json.str "a"],
        Json.arr [Json.str "cat", Json.str "a", Json.str "b"]] ∧
      "/divya-prabandam/cat/a/b" = candidate_path e ∧ e.length - 1 = 2 :=
  C2_leaf_depth.2.1 _ (Json.arr [Json.str "cat", Json.str "a", Json.str "b"]) 2
    "/divya-prabandam/cat/a/b" (by rfl) (by rfl) (by decide)

/-- C3: an entry whose candidate path contains `taniyan` or `advanced`
never contributes to the kept path list nor to the leaf URL list, for
any descendants value and any Prabandam payload — in particular even
when its depth matches the Prabandam depth. -/
theorem C3_marker_exclusion :
    ∀ (base_url build_id : String) (descendants payload : Json) (e : List Json),
      hasSubstr (candidate_path e) "taniyan" = true ∨
        hasSubstr (candidate_path e) "advanced" = true →
      candidate_path e ∉ discover_leaf_paths descendants ∧
      construct_url base_url build_id (candidate_path e) ∉
        leaf_urls_of_payload base_url build_id payload := by
  intro b i descendants payload e hmark
  constructor
  · intro hmem
    have hcl := clean_of_mem_discover hmem
    rcases hmark with hm | hm
    · rw [hcl.1] at hm; exact Bool.false_ne_true hm
    · rw [hcl.2] at hm; exact Bool.false_ne_true hm
  · intro hmem
    cases hdo : descendants_of payload with
    | none =>
        simp [leaf_urls_of_payload, hdo] at hmem
    | some dd =>
        simp only [leaf_urls_of_payload, hdo] at hmem
        obtain ⟨p, hpmem, hpeq⟩ := List.mem_map.1 hmem
        obtain ⟨e', hpe⟩ := candidate_of_mem_discover hpmem
        have hclp := clean_of_mem_discover hpmem
        have hshape_p : ∃ r, p.data = '/' :: 'd' :: r := by
          rw [hpe]; exact candidate_path_head e'
        have hpq : p = candidate_path e :=
          construct_url_inj_slash hshape_p (candidate_path_head e) hpeq
        rw [hpq] at hclp
        rcases hmark with hm | hm
        · rw [hclp.1] at hm; exact Bool.false_ne_true hm
        · rw [hclp.2] at hm; exact Bool.false_ne_true hm

/-- Witness for C3 on a depth-matching `taniyan` entry. -/
theorem C3_marker_exclusion_witness :
    candidate_path [Json.str "cat", Json.str "taniyan"] ∉
      discover_leaf_paths (Json.arr [Json.arr [Json.str "cat", Json.str "taniyan"]]) ∧
    construct_url "b" "i" (candidate_path [Json.str "cat", Json.str "taniyan"]) ∉
      leaf_urls_of_payload "b" "i" (Json.obj [("pageProps", Json.obj [("descendants_list",
        Json.arr [Json.arr [Json.str "cat", Json.str "taniyan"]])])]) :=
  C3_marker_exclusion "b" "i" _ _ _ (Or.inl (by decide))

/-- C4: the record extractor returns the empty result on a falsy payload
and on a payload lacking `pageProps`; it joins a list-valued
`pageProps.scriptures` with commas and passes a string-valued one
through unchanged; and it is total — every payload yields either the
empty result or a record, never an exception. -/
theorem C4_process_paasuram :
    (∀ (data : Json), data.truthy = false → process_paasuram data = none) ∧
    (∀ (kvs : List (String × Json)), Json.lookup kvs "pageProps" = none →
        process_paasuram (.obj kvs) = none) ∧
    (process_paasuram (.obj [("pageProps",
        .obj [("scriptures", .arr [.str "a", .str "b"])])])).map Record.scriptures =
      some "a,b" ∧
    (process_paasuram (.obj [("pageProps",
        .obj [("scriptures", .str "already a string")])])).map Record.scriptures =
      some "already a string" ∧
    (∀ (data : Json), process_paasuram data = none ∨
      ∃ r, process_paasuram data = some r) := by
  refine ⟨?_, ?_, by decide, by decide, ?_⟩
  · intro data h
    cases data with
    | obj kvs => simp [process_paasuram, h]
    | str s => rfl
    | num n => rfl
    | bool b => rfl
    | null => rfl
    | arr items => rfl
  · intro kvs h
    by_cases ht : (Json.obj kvs).truthy
    · simp [process_paasuram, ht, h]
    · simp [process_paasuram, Bool.of_not_eq_true ht]
  · intro data
    cases h : process_paasuram data with
    | none => exact Or.inl rfl
    | some r => exact Or.inr ⟨r, rfl⟩

/-- Witness for C4 on the empty dict payload. -/
theorem C4_process_paasuram_witness :
    process_paasuram (Json.obj []) = none :=
  C4_process_paasuram.1 (Json.obj []) (by decide)

/-- C5: the fetcher yields the empty dict on a transport failure (network
error, retries exhausted without a response), on any 4xx/5xx response
status, and on a response body that does not parse as JSON; being a
total function of the GET outcome, it never propagates an exception. -/
theorem C5_fetch_json :
    ∀ (parse : String → Option Json),
      fetch_json parse .transportError = Json.obj [] ∧
      (∀ (status : Nat) (body : String), 400 ≤ status → status < 600 →
        fetch_json parse (.response status body) = Json.obj []) ∧
      (∀ (status : Nat) (body : String), parse body = none →
        fetch_json parse (.response status body) = Json.obj []) := by
  intro parse
  refine ⟨rfl, ?_, ?_⟩
  · intro status body h1 h2
    simp [fetch_json, h1, h2]
  · intro status body h
    by_cases hs : 400 ≤ status ∧ status < 600
    · simp [fetch_json, hs]
    · simp [fetch_json, hs, h]

/-- Witness for C5 at a 500 status and an unparseable body. -/
theorem C5_fetch_json_witness :
    fetch_json (fun _ => none) (.response 500 "nope") = Json.obj [] ∧
    fetch_json (fun _ => none) (.response 200 "nope") = Json.obj [] :=
  ⟨(C5_fetch_json (fun _ => none)).2.1 500 "nope" (by decide) (by decide),
   (C5_fetch_json (fun _ => none)).2.2 200 "nope" rfl⟩

/-- C8: `_construct_url` is a total function of its inputs, and its path
normalization is idempotent — a path with or without the leading slash
produces the same URL, namely the base, the `_next/data` segment, the
build id, the normalized path and the `.json` suffix concatenated. -/
theorem C8_construct_url :
    ∀ (base_url build_id : String),
      construct_url base_url build_id "divya-prabandam" =
        construct_url base_url build_id "/divya-prabandam" ∧
      construct_url base_url build_id "/divya-prabandam" =
        base_url ++ "/_next/data/" ++ build_id ++ "/divya-prabandam" ++ ".json" := by
  intro base_url build_id
  have h1 : startsWithSlash "divya-prabandam" = false := by decide
  have h2 : startsWithSlash "/divya-prabandam" = true := by decide
  have h3 : "/" ++ "divya-prabandam" = "/divya-prabandam" := by decide
  constructor
  · simp only [construct_url, h1, h2, Bool.false_eq_true, if_false, if_true, h3]
  · simp only [construct_url, h2, if_true]

/-- C9 counterexample: the discovered path `/` is truthy, so it survives
the falsy filter, and stripping its trailing slashes hands the empty
string to `_construct_url` — the handed path list for `["/"]` is
`[""]`. -/
theorem C9_counterexample :
    stripped_paths ["/"] = [""] ∧ "" ∈ stripped_paths ["/"] := by
  exact ⟨rfl, by decide⟩

/-- C9 (amended): every path handed to `_construct_url` during Prabandam
URL generation is the trailing-slash strip of a non-empty discovered
path, and it is itself non-empty whenever that discovered path contains
any character other than `/` (a discovered path consisting solely of
slashes strips to the empty string). -/
theorem C9_stripped_paths :
    ∀ (url_paths : List String) (p : String), p ∈ stripped_paths url_paths →
      ∃ q, q ∈ url_paths ∧ q ≠ "" ∧ p = rstripSlash q ∧
        ((∃ c ∈ q.data, c ≠ '/') → p ≠ "") := by
  intro url_paths p hp
  obtain ⟨q, hqmem, hqeq⟩ := List.mem_map.1 hp
  obtain ⟨hq, hqne⟩ := List.mem_filter.1 hqmem
  refine ⟨q, hq, by simpa using hqne, hqeq.symm, ?_⟩
  rintro ⟨c, hc, hcne⟩ hpe
  have hdata : (rstripSlash q).data = [] := by
    rw [hqeq, hpe]
  have hall : ∀ x ∈ q.data.reverse, x = '/' := by
    have : q.data.reverse.dropWhile (fun x => x = '/') = [] := by
      have := congrArg List.reverse hdata
      simpa [rstripSlash] using this
    intro x hx
    simpa using List.dropWhile_eq_nil_iff.1 this x hx
  exact hcne (hall c (List.mem_reverse.2 hc))

/-- Witness for C9 (amended) on a normal discovered path. -/
theorem C9_stripped_paths_witness :
    ∃ q, q ∈ ["/divya-prabandam/"] ∧ q ≠ "" ∧
      "/divya-prabandam" = rstripSlash q ∧
      ((∃ c ∈ q.data, c ≠ '/') → "/divya-prabandam" ≠ "") :=
  C9_stripped_paths ["/divya-prabandam/"] "/divya-prabandam" (by decide)

/-- C10 counterexample: the entry `["cat","a",""]` has depth `2`, but its
candidate path is `/divya-prabandam/cat/a` — the truthy filter drops only
the empty component, not the leading category marker, so the path is not
`/divya-prabandam/a` as the claim's example states. -/
theorem C10_counterexample :
    (([Json.str "cat", Json.str "a", Json.str ""] : List Json).drop 1).length = 2 ∧
    candidate_path [Json.str "cat", Json.str "a", Json.str ""] =
      "/divya-prabandam/cat/a" ∧
    candidate_path [Json.str "cat", Json.str "a", Json.str ""] ≠
      "/divya-prabandam/a" := by
  exact ⟨rfl, rfl, by decide⟩

/-- C10 (amended): an entry's depth counts every element after the first,
falsy ones included, while its candidate path keeps only truthy
elements; an entry containing a falsy element always has fewer path
parts than elements, and the depth can exceed the part count — e.g.
`["cat","","a",""]` has depth `3` but only `2` path parts, yielding
`/divya-prabandam/cat/a`; `["cat","a",""]` has depth `2` and also yields
`/divya-prabandam/cat/a`. -/
theorem C10_depth_vs_parts :
    (∀ (e : List Json), (e.drop 1).length = e.length - 1) ∧
    (∀ (e : List Json) (x : Json), x ∈ e → x.truthy = false →
      ((e.filter Json.truthy).map Json.pyStr).length < e.length) ∧
    ((([Json.str "cat", Json.str "", Json.str "a", Json.str ""] : List Json).drop 1).length = 3 ∧
      candidate_path [Json.str "cat", Json.str "", Json.str "a", Json.str ""] =
        "/divya-prabandam/cat/a" ∧
      (([Json.str "cat", Json.str "", Json.str "a", Json.str ""].filter
          Json.truthy).map Json.pyStr).length = 2) ∧
    (([Json.str "cat", Json.str "a", Json.str ""] : List Json).drop 1).length = 2 ∧
    candidate_path [Json.str "cat", Json.str "a", Json.str ""] =
      "/divya-prabandam/cat/a" := by
  refine ⟨?_, ?_, ⟨rfl, rfl, rfl⟩, rfl, rfl⟩
  · intro e
    exact List.length_drop 1 e
  · intro e x hx hfalsy
    rw [List.length_map]
    exact List.length_filter_lt_length_iff_exists.2 ⟨x, hx, by simp [hfalsy]⟩

/-- Witness for C10 (amended) at a falsy component. -/
theorem C10_depth_vs_parts_witness :
    (([Json.str "cat", Json.str "a", Json.str ""].filter
        Json.truthy).map Json.pyStr).length < 3 :=
  C10_depth_vs_parts.2.1 [Json.str "cat", Json.str "a", Json.str ""]
    (Json.str "") (List.mem_cons_of_mem _ (List.mem_cons_of_mem _
      (List.mem_cons_self _ _))) (by decide)

/-- C6: each structural zero-result condition aborts the run with an
error and no rows are written; an empty root fetch (and likewise an
empty path discovery) aborts after the single root fetch, before any
Prabandam or worker-pool fetch is attempted. -/
theorem C6_fatal_conditions :
    ∀ (base_url build_id : String) (fetch : String → Json),
      ((fetch (root_url base_url build_id)).truthy = false →
        scrape_and_save base_url build_id fetch =
          ⟨.error "Failed to fetch initial data", [root_url base_url build_id]⟩) ∧
      ((fetch (root_url base_url build_id)).truthy = true →
        find_url_paths (fetch (root_url base_url build_id)) = [] →
        scrape_and_save base_url build_id fetch =
          ⟨.error "No URL paths found in initial data", [root_url base_url build_id]⟩) ∧
      ((fetch (root_url base_url build_id)).truthy = true →
        find_url_paths (fetch (root_url base_url build_id)) ≠ [] →
        prabandam_urls_of base_url build_id
            (find_url_paths (fetch (root_url base_url build_id))) = [] →
        scrape_and_save base_url build_id fetch =
          ⟨.error "No Prabandam URLs generated", [root_url base_url build_id]⟩) ∧
      ((fetch (root_url base_url build_id)).truthy = true →
        find_url_paths (fetch (root_url base_url build_id)) ≠ [] →
        prabandam_urls_of base_url build_id
            (find_url_paths (fetch (root_url base_url build_id))) ≠ [] →
        paasuram_urls_of base_url build_id fetch
            (prabandam_urls_of base_url build_id
              (find_url_paths (fetch (root_url base_url build_id)))) = [] →
        (scrape_and_save base_url build_id fetch).outcome =
          .error "No Paasuram URLs found") ∧
      ((fetch (root_url base_url build_id)).truthy = true →
        find_url_paths (fetch (root_url base_url build_id)) ≠ [] →
        prabandam_urls_of base_url build_id
            (find_url_paths (fetch (root_url base_url build_id))) ≠ [] →
        paasuram_urls_of base_url build_id fetch
            (prabandam_urls_of base_url build_id
              (find_url_paths (fetch (root_url base_url build_id)))) ≠ [] →
        collected_records fetch
            (paasuram_urls_of base_url build_id fetch
              (prabandam_urls_of base_url build_id
                (find_url_paths (fetch (root_url base_url build_id))))) = [] →
        (scrape_and_save base_url build_id fetch).outcome =
          .error "No paasuram data collected") := by
  intro base_url build_id fetch
  refine ⟨?_, ?_, ?_, ?_, ?_⟩
  · intro h1
    simp [scrape_and_save, h1]
  · intro h1 h2
    simp [scrape_and_save, h1, h2]
  · intro h1 h2 h3
    simp [scrape_and_save, h1, h2, h3]
  · intro h1 h2 h3 h4
    simp [scrape_and_save, h1, h2, h3, h4]
  · intro h1 h2 h3 h4 h5
    simp [scrape_and_save, h1, h2, h3, h4, h5]

/-- Witness for C6 with an oracle whose every fetch fails. -/
theorem C6_fatal_conditions_witness :
    scrape_and_save "b" "i" (fun _ => Json.obj []) =
      ⟨.error "Failed to fetch initial data", [root_url "b" "i"]⟩ :=
  (C6_fatal_conditions "b" "i" (fun _ => Json.obj [])).1 (by decide)

/-- C7: in the five-leaf run described by `c7_fetch`, where exactly the
third leaf fetch fails and degrades to an empty payload, the remaining
four records are collected and the run completes with those four rows —
the single failure is not fatal. -/
theorem C7_one_failed_leaf :
    (paasuram_urls_of "b" "i" c7_fetch (prabandam_urls_of "b" "i"
        (find_url_paths (c7_fetch (root_url "b" "i"))))).length = 5 ∧
    process_paasuram (c7_fetch (construct_url "b" "i" "/divya-prabandam/cat/x3")) = none ∧
    (scrape_and_save "b" "i" c7_fetch).outcome =
      .ok [c7_record, c7_record, c7_record, c7_record] := by
  exact ⟨by decide, by decide, by decide⟩
